import Mathlib

/-!
Verification development for the lexical front end of a SQL pretty-printer.

Two components are embedded:

* `Params` — the placeholder-value resolver, translated from
  `src/formatter/Params.ts`.
* the rule-table tokenizer built in `src/lexer/tokenizer.ts`.
  The rule-table order and the literal regexes written in `tokenizer.ts`
  (block comment, CASE/END, the operator character set and multi-character
  operator list) are translated from that source; the third-party matching
  engine (`moo`) and the helper regex factory (`core/mooRegexFactory`) are
  not among the available sources and are modelled from the specification
  (sections 4.1 and 4.2): a first-match ordered rule table, each rule
  anchored at the current cursor, emitting the matched text and advancing
  by its length; termination of the scan is made explicit with fuel equal
  to the input length (each emitted token consumes at least one character).
-/

namespace SqlFormatter

/-! ## Placeholder resolver (`src/formatter/Params.ts`)

The TypeScript class `Params` holds `params: ParamItems | string[] | undefined`
and a mutable `index` starting at 0.  `get({key, text})` is translated with
explicit state passing: it returns the produced value together with the
updated `Params`.  JavaScript `undefined` results are modelled as `none`.
-/

/-- The parameter source: either a mapping from keys to values
(`ParamItems = { [k: string]: string }`) or an ordered array (`string[]`). -/
inductive ParamSource where
  | items : List (String × String) → ParamSource
  | arr : List String → ParamSource
  deriving DecidableEq, Repr

/-- State of one `Params` instance: the optional source and the cursor
(`this.index`). -/
structure Params where
  params : Option ParamSource
  index : Nat
  deriving DecidableEq, Repr

/-- The constructor `new Params(params)`: stores the source and sets
`this.index = 0`. -/
def makeParams (ps : Option ParamSource) : Params := ⟨ps, 0⟩

/-- JavaScript truthiness of the optional `key` argument, as tested by
`if (key)` in the source: truthy iff a key is supplied and it is not the
empty string. -/
def keyTruthy : Option String → Bool
  | none => false
  | some k => k ≠ ""

/-- A string that is a canonical JavaScript array index: nonempty, decimal
digits only, no leading zero except `"0"` itself.  Returns the index value. -/
def canonicalIndex? (k : String) : Option Nat :=
  let cs := k.data
  if cs.isEmpty then none
  else if !cs.all Char.isDigit then none
  else if cs.head? == some '0' && cs != ['0'] then none
  else some (cs.foldl (fun a c => a * 10 + (c.toNat - 48)) 0)

/-- Property read `obj[key]` with a string key, on either source shape.
On a mapping it is plain key lookup.  On a JavaScript array, a string key
reads an element exactly when it is the canonical decimal form of an index
in range (own data properties only; inherited properties such as `length`
are outside the model and never arise in the claims). -/
def jsKeyGet (src : ParamSource) (k : String) : Option String :=
  match src with
  | .items m => m.lookup k
  | .arr l =>
    match canonicalIndex? k with
    | some i => l.get? i
    | none => none

/-- Property read `obj[i]` with a numeric index, on either source shape:
`(this.params as string[])[this.index]`.  On a JavaScript object the
numeric key is converted to its decimal string. -/
def jsPosGet (src : ParamSource) (i : Nat) : Option String :=
  match src with
  | .items m => m.lookup (toString i)
  | .arr l => l.get? i

/-- Translation of `Params.get({key, text})`:
no source → return `text` unchanged; truthy key → `this.params[key]`
(cursor untouched); otherwise → `this.params[this.index++]`. -/
def Params.get (p : Params) (key : Option String) (text : String) :
    Option String × Params :=
  match p.params with
  | none => (some text, p)
  | some src =>
    if keyTruthy key then
      (jsKeyGet src (key.getD ("")), p)
    else
      (jsPosGet src p.index, { p with index := p.index + 1 })

/-- Run a sequence of `get` calls (key, text pairs), threading the state. -/
def runGets (p : Params) : List (Option String × String) → Params
  | [] => p
  | (k, t) :: rest => runGets (p.get k t).2 rest

/-- A `get` call is positional exactly when a source is present and the key
is JS-falsy (absent or empty): only then does the source increment
`this.index`. -/
def positionalCall (p : Params) (key : Option String) : Bool :=
  p.params.isSome && !keyTruthy key

/-! ## Tokenizer (`src/lexer/tokenizer.ts`)

A rule is a token type paired with a matcher.  A matcher inspects the text
from the current cursor on and returns the length of its match there, or
`none`; the emitted token text is exactly the consumed prefix, as in the
engine the specification describes (sections 4.1 and 4.2).
-/

/-- The token categories of `core/token` used as rule names in
`tokenizer.ts`, plus the unexported names `WS`, `NL` and the placeholder
rules, in the source's spelling. -/
inductive TokenType where
  | WS
  | NL
  | BLOCK_COMMENT
  | LINE_COMMENT
  | COMMA
  | OPEN_PAREN
  | CLOSE_PAREN
  | OPEN_BRACKET
  | CLOSE_BRACKET
  | OPERATOR
  | NUMBER
  | CASE_START
  | CASE_END
  | RESERVED_COMMAND
  | RESERVED_BINARY_COMMAND
  | RESERVED_DEPENDENT_CLAUSE
  | RESERVED_LOGICAL_OPERATOR
  | RESERVED_KEYWORD
  | INDEXED_PLACEHOLDER
  | NAMED_PLACEHOLDER
  | STRING_PLACEHOLDER
  | STRING
  | WORD
  deriving DecidableEq, Repr

/-- An emitted token: its category and the exact matched text. -/
structure Token where
  type : TokenType
  text : List Char
  deriving DecidableEq, Repr

/-- An ordered rule table: category paired with a matcher returning the
length of a match anchored at the current position. -/
abbrev LexRules := List (TokenType × (List Char → Option Nat))

/-- The apostrophe character (string delimiter). -/
def quoteChar : Char := Char.ofNat 39

/-- The backslash character (escape in string bodies). -/
def backslashChar : Char := Char.ofNat 92

/-- Non-newline whitespace accepted by the `WS` rule `/[ \t]+/`. -/
def isWsChar (c : Char) : Bool := c == ' ' || c == '\t'

/-- Word characters in the sense of regex `\w`: ASCII letters, digits and
underscore. -/
def isWordChar (c : Char) : Bool := c.isAlphanum || c == '_'

/-- `WS` rule `/[ \t]+/`: one or more blanks or tabs. -/
def wsMatch (s : List Char) : Option Nat :=
  let n := (s.takeWhile isWsChar).length
  if n == 0 then none else some n

/-- `NL` rule `/\n/`: a single newline. -/
def nlMatch : List Char → Option Nat
  | '\n' :: _ => some 1
  | _ => none

/-- Index of the first `*/` in the list, if any. -/
def findCloser : List Char → Option Nat
  | '*' :: '/' :: _ => some 0
  | _ :: rest => (findCloser rest).map (· + 1)
  | [] => none

/-- `BLOCK_COMMENT` rule, the regex of `tokenizer.ts` line 56: after the
opener `/*`, a lazy body up to the first closer `*/`, or to end-of-input
when no closer exists. -/
def blockCommentMatch (s : List Char) : Option Nat :=
  match s with
  | '/' :: '*' :: rest =>
    match findCloser rest with
    | some k => some (k + 4)
    | none => some s.length
  | _ => none

/-- `LINE_COMMENT` rule.  Modelled from the spec: one of the configured
prefixes, then everything up to (not including) the next newline or
end-of-input (`lineCommentRegex` of `core/mooRegexFactory` is not among
the sources). -/
def lineCommentMatch (types : List (List Char)) (s : List Char) : Option Nat :=
  match types.find? (fun p => p.isPrefixOf s) with
  | some p =>
    some (p.length + ((s.drop p.length).takeWhile (fun c => c != '\n')).length)
  | none => none

/-- A rule matching one fixed literal character, as the comma, parenthesis
and bracket rules do. -/
def singleCharMatch (c : Char) (s : List Char) : Option Nat :=
  match s with
  | c0 :: _ => if c0 == c then some 1 else none
  | [] => none

/-- The single-character operator set of `tokenizer.ts` lines 65–73, the
base string passed to `operatorRegex`. -/
def operBase : List Char :=
  ['+', '-', '/', '*', '%', '&', '|', '^', '>', '<', '=', '.', ';',
   Char.ofNat 123, Char.ofNat 125, Char.ofNat 96, ':', '$']

/-- The multi-character operators of `tokenizer.ts` lines 65–73 followed by
any dialect extras. -/
def multiOps (extra : List (List Char)) : List (List Char) :=
  [['<', '>'], ['<', '='], ['>', '='], ['!', '=']] ++ extra

/-- `OPERATOR` rule.  Modelled from the spec: the multi-character operators
are tried before the single-character fallback (`operatorRegex` of
`core/mooRegexFactory` is not among the sources). -/
def operatorMatch (base : List Char) (multi : List (List Char))
    (s : List Char) : Option Nat :=
  match multi.find? (fun op => op.isPrefixOf s) with
  | some op => some op.length
  | none =>
    match s with
    | c :: _ => if base.contains c then some 1 else none
    | [] => none

/-- Length of the leading run of decimal digits. -/
def digitsPrefixLen (s : List Char) : Nat := (s.takeWhile Char.isDigit).length

/-- Whitespace in the sense of regex `\s` (the characters arising in SQL
text: blank, tab, newline, carriage return). -/
def isJsSpace (c : Char) : Bool :=
  c == ' ' || c == '\t' || c == '\n' || c == '\r'

/-- Length of an optional fraction `(?:\.[0-9]+)?` at the front: a dot
followed by at least one digit, else zero. -/
def fracLen (s : List Char) : Nat :=
  match s with
  | '.' :: rest =>
    let d := digitsPrefixLen rest
    if d == 0 then 0 else d + 1
  | _ => 0

/-- Length of an optional exponent `(?:[eE][-+]?[0-9]+(?:\.[0-9]+)?)?` at
the front, else zero. -/
def expLen (s : List Char) : Nat :=
  match s with
  | c :: rest =>
    if c == 'e' || c == 'E' then
      match rest with
      | c2 :: rest2 =>
        if c2 == '+' || c2 == '-' then
          let d := digitsPrefixLen rest2
          if d == 0 then 0 else 2 + d + fracLen (rest2.drop d)
        else
          let d := digitsPrefixLen rest
          if d == 0 then 0 else 1 + d + fracLen (rest.drop d)
      | [] => 0
    else 0
  | [] => 0

/-- Candidate match lengths for the decimal alternative
`(?:-\s*)?[0-9]+(?:\.[0-9]+)?(?:[eE][-+]?[0-9]+(?:\.[0-9]+)?)?` of the
`NUMBER` regex, greediest first (with exponent and fraction, with fraction
only, digits only), mirroring the backtracking order of the optional
groups. -/
def decCandidates (s : List Char) : List Nat :=
  let sgnRest :=
    match s with
    | '-' :: r =>
      let ws := (r.takeWhile isJsSpace).length
      (1 + ws, r.drop ws)
    | r => (0, r)
  let sgn := sgnRest.1
  let rest := sgnRest.2
  let d := digitsPrefixLen rest
  if d == 0 then []
  else
    let f := fracLen (rest.drop d)
    let e := expLen (rest.drop (d + f))
    [sgn + d + f + e, sgn + d + f, sgn + d]

/-- Candidate match length for the hexadecimal alternative `0x[0-9a-fA-F]+`. -/
def hexCandidates (s : List Char) : List Nat :=
  match s with
  | '0' :: 'x' :: rest =>
    let d := (rest.takeWhile (fun c => c.isDigit ||
      ('a' ≤ c && c ≤ 'f') || ('A' ≤ c && c ≤ 'F'))).length
    if d == 0 then [] else [d + 2]
  | _ => []

/-- Candidate match length for the binary alternative `0b[01]+`. -/
def binCandidates (s : List Char) : List Nat :=
  match s with
  | '0' :: 'b' :: rest =>
    let d := (rest.takeWhile (fun c => c == '0' || c == '1')).length
    if d == 0 then [] else [d + 2]
  | _ => []

/-- The trailing `\b` of the `NUMBER` regex: every alternative ends in a
digit or hex letter, so the boundary holds iff the character after the
match is absent or not a word character. -/
def boundaryOk (s : List Char) (n : Nat) : Bool :=
  match (s.drop n).head? with
  | none => true
  | some c => !isWordChar c

/-- `NUMBER` rule of `tokenizer.ts`: the first alternative (decimal, then
hexadecimal, then binary, in regex order) whose end lands on a word
boundary. -/
def numberMatch (s : List Char) : Option Nat :=
  (decCandidates s ++ hexCandidates s ++ binCandidates s).find?
    (fun n => boundaryOk s n)

/-- Case-insensitive prefix test (ASCII folding). -/
def ciPrefixOf : List Char → List Char → Bool
  | [], _ => true
  | _ :: _, [] => false
  | a :: as, b :: bs => a.toLower == b.toLower && ciPrefixOf as bs

/-- `CASE_START` rule `/[Cc][Aa][Ss][Ee]/`: the four letters of `case` in
any letter case, with no word-boundary check. -/
def caseStartMatch (s : List Char) : Option Nat :=
  if ciPrefixOf ['C', 'A', 'S', 'E'] s then some 4 else none

/-- `CASE_END` rule `/[Ee][Nn][Dd]/`: the three letters of `end` in any
letter case, with no word-boundary check. -/
def caseEndMatch (s : List Char) : Option Nat :=
  if ciPrefixOf ['E', 'N', 'D'] s then some 3 else none

/-- Whole-word check after a match of length `n`: the next character is
absent, or is neither a word character nor a configured special word
character. -/
def wordBoundaryAfter (special : List Char) (n : Nat) (s : List Char) : Bool :=
  match (s.drop n).head? with
  | none => true
  | some c => !(isWordChar c || special.contains c)

/-- Reserved-word rules.  Modelled from the spec: the first configured word
that is a case-insensitive whole-word prefix of the text, honoring the
configured special word characters (`reservedWordRegex` of
`core/mooRegexFactory` is not among the sources). -/
def reservedMatch (words : List (List Char)) (special : List Char)
    (s : List Char) : Option Nat :=
  match words.find? (fun w => ciPrefixOf w s && wordBoundaryAfter special w.length s) with
  | some w => some w.length
  | none => none

/-- `INDEXED_PLACEHOLDER` rule.  Modelled from the spec: a configured
indexed prefix followed by optional digits (`placeholderRegex` with suffix
`[0-9]*`). -/
def indexedPlaceholderMatch (prefixes : List (List Char))
    (s : List Char) : Option Nat :=
  match prefixes.find? (fun p => p.isPrefixOf s) with
  | some p => some (p.length + digitsPrefixLen (s.drop p.length))
  | none => none

/-- Characters of the named-placeholder suffix class `[a-zA-Z0-9._$]`. -/
def namedCharOk (c : Char) : Bool :=
  c.isAlphanum || c == '.' || c == '_' || c == '$'

/-- `NAMED_PLACEHOLDER` rule.  Modelled from the spec: a configured named
prefix followed by a nonempty identifier-like suffix (`placeholderRegex`
with suffix `[a-zA-Z0-9._$]+`). -/
def namedPlaceholderMatch (prefixes : List (List Char))
    (s : List Char) : Option Nat :=
  match prefixes.find? (fun p => p.isPrefixOf s) with
  | some p =>
    let n := ((s.drop p.length).takeWhile namedCharOk).length
    if n == 0 then none else some (p.length + n)
  | none => none

/-- Body of a single-quoted string after the opening quote: plain
characters, doubled quotes and backslash escapes, up to and including the
closing quote.  Returns the consumed length.  Modelled from the spec
(`stringRegex` of `core/mooRegexFactory` is not among the sources):
escaped delimiters are supported, an unterminated string does not match. -/
def sqBody : List Char → Option Nat
  | [] => none
  | c :: rest =>
    if c == quoteChar then
      match rest with
      | c2 :: rest2 =>
        if c2 == quoteChar then (sqBody rest2).map (· + 2) else some 1
      | [] => some 1
    else if c == backslashChar then
      match rest with
      | _ :: rest2 => (sqBody rest2).map (· + 2)
      | [] => none
    else
      match rest with
      | _ => (sqBody rest).map (· + 1)

/-- `STRING` rule for the `''` quoting style enabled in the demo dialect. -/
def stringMatch (s : List Char) : Option Nat :=
  match s with
  | c :: rest => if c == quoteChar then (sqBody rest).map (· + 1) else none
  | [] => none

/-- `STRING_PLACEHOLDER` rule.  Modelled from the spec: a configured named
prefix immediately followed by a quoted string literal. -/
def stringPlaceholderMatch (prefixes : List (List Char))
    (s : List Char) : Option Nat :=
  match prefixes.find? (fun p => p.isPrefixOf s) with
  | some p => (stringMatch (s.drop p.length)).map (p.length + ·)
  | none => none

/-- `WORD` rule.  Modelled from the spec: a nonempty run of word characters
and configured special word characters (`wordRegex` of
`core/mooRegexFactory` is not among the sources; the demo dialect
configures no special word characters). -/
def wordMatch (special : List Char) (s : List Char) : Option Nat :=
  let n := (s.takeWhile (fun c => isWordChar c || special.contains c)).length
  if n == 0 then none else some n

/-- The dialect configuration fields of `TokenizerOptions` that feed the
rule table (the `blockStart`/`blockEnd` and `stringTypes` fields are fixed
in this development to the parenthesis/bracket rules hardcoded in
`tokenizer.ts` and the `''` quoting style). -/
structure TokenizerOptions where
  reservedKeywords : List (List Char)
  reservedCommands : List (List Char)
  reservedLogicalOperators : List (List Char)
  reservedDependentClauses : List (List Char)
  reservedBinaryCommands : List (List Char)
  indexedPlaceholderTypes : List (List Char)
  namedPlaceholderTypes : List (List Char)
  lineCommentTypes : List (List Char)
  specialWordChars : List Char
  operators : List (List Char)

/-- The ordered rule table of `tokenizer.ts` lines 53–108
(`LEXER_OPTIONS`), in the source's insertion order, which is the match
priority order of the engine. -/
def buildRules (cfg : TokenizerOptions) : LexRules :=
  [(TokenType.WS, wsMatch),
   (TokenType.NL, nlMatch),
   (TokenType.BLOCK_COMMENT, blockCommentMatch),
   (TokenType.LINE_COMMENT, lineCommentMatch cfg.lineCommentTypes),
   (TokenType.COMMA, singleCharMatch ','),
   (TokenType.OPEN_PAREN, singleCharMatch '('),
   (TokenType.CLOSE_PAREN, singleCharMatch ')'),
   (TokenType.OPEN_BRACKET, singleCharMatch '['),
   (TokenType.CLOSE_BRACKET, singleCharMatch ']'),
   (TokenType.OPERATOR, operatorMatch operBase (multiOps cfg.operators)),
   (TokenType.NUMBER, numberMatch),
   (TokenType.CASE_START, caseStartMatch),
   (TokenType.CASE_END, caseEndMatch),
   (TokenType.RESERVED_COMMAND,
     reservedMatch cfg.reservedCommands cfg.specialWordChars),
   (TokenType.RESERVED_BINARY_COMMAND,
     reservedMatch cfg.reservedBinaryCommands cfg.specialWordChars),
   (TokenType.RESERVED_DEPENDENT_CLAUSE,
     reservedMatch cfg.reservedDependentClauses cfg.specialWordChars),
   (TokenType.RESERVED_LOGICAL_OPERATOR,
     reservedMatch cfg.reservedLogicalOperators cfg.specialWordChars),
   (TokenType.RESERVED_KEYWORD,
     reservedMatch cfg.reservedKeywords cfg.specialWordChars),
   (TokenType.INDEXED_PLACEHOLDER,
     indexedPlaceholderMatch cfg.indexedPlaceholderTypes),
   (TokenType.NAMED_PLACEHOLDER,
     namedPlaceholderMatch cfg.namedPlaceholderTypes),
   (TokenType.STRING_PLACEHOLDER,
     stringPlaceholderMatch cfg.namedPlaceholderTypes),
   (TokenType.STRING, stringMatch),
   (TokenType.WORD, wordMatch cfg.specialWordChars)]

/-- A small standard-SQL dialect configuration used for the concrete
claims: `--` line comments, `?` indexed and `:` named placeholders, no
extra reserved words, operators or special word characters. -/
def demoOptions : TokenizerOptions :=
  { reservedKeywords := []
    reservedCommands := []
    reservedLogicalOperators := []
    reservedDependentClauses := []
    reservedBinaryCommands := []
    indexedPlaceholderTypes := [['?']]
    namedPlaceholderTypes := [[':']]
    lineCommentTypes := [['-', '-']]
    specialWordChars := []
    operators := [] }

/-- The demo dialect's rule table. -/
def sqlRules : LexRules := buildRules demoOptions

/-- First-match selection: the earliest rule in table order whose matcher
succeeds at the current position, with its match length. -/
def firstMatch : LexRules → List Char → Option (TokenType × Nat)
  | [], _ => none
  | (ty, m) :: rest, s =>
    match m s with
    | some n => some (ty, n)
    | none => firstMatch rest s

/-- The scanning loop of the engine (spec section 4.2): at each step take
the first matching rule, emit a token whose text is the consumed prefix,
advance by the match length and continue; stop at end-of-input, at a
position with no match (early termination, no exception) or at a
zero-length match (the fatal configuration-defect case).  The returned
pair is the emitted tokens and the unconsumed remainder. -/
def tokenizeAux (rules : LexRules) : Nat → List Char → List Token × List Char
  | _, [] => ([], [])
  | 0, s => ([], s)
  | fuel + 1, s =>
    match firstMatch rules s with
    | none => ([], s)
    | some (_, 0) => ([], s)
    | some (ty, n + 1) =>
      let r := tokenizeAux rules fuel (s.drop (n + 1))
      (⟨ty, s.take (n + 1)⟩ :: r.1, r.2)

/-- `Tokenizer.tokenize`: run the scan from offset 0 on the whole input.
Fuel equal to the input length suffices, since every emitted token
consumes at least one character. -/
def tokenize (rules : LexRules) (input : List Char) : List Token × List Char :=
  tokenizeAux rules input.length input

/-- Concatenation of the `text` fields of a token list, in order. -/
def tokensText (toks : List Token) : List Char :=
  (toks.map Token.text).flatten

/-! ## Theorems -/

theorem get_index_step (p : Params) (key : Option String) (text : String) :
    ((p.get key text).2).index =
      if positionalCall p key then p.index + 1 else p.index := by
  cases p with
  | mk ps i =>
    cases ps with
    | none => simp [Params.get, positionalCall]
    | some src =>
      by_cases hk : keyTruthy key
      · simp [Params.get, positionalCall, hk]
      · simp [Params.get, positionalCall, hk]

theorem get_index_mono (p : Params) (key : Option String) (text : String) :
    p.index ≤ ((p.get key text).2).index := by
  rw [get_index_step]
  split <;> omega

theorem runGets_index_mono (calls : List (Option String × String)) (p : Params) :
    p.index ≤ (runGets p calls).index := by
  induction calls generalizing p with
  | nil => simp [runGets]
  | cons c rest ih =>
    calc p.index ≤ ((p.get c.1 c.2).2).index := get_index_mono p c.1 c.2
    _ ≤ (runGets (p.get c.1 c.2).2 rest).index := ih _
    _ = (runGets p (c :: rest)).index := by simp [runGets]

/-- C9: Resolver-cursor invariant: the cursor starts at 0 at construction,
is monotonically non-decreasing across any sequence of `get` calls (hence
never reset), and a single `get` increments it by one exactly on positional
lookups — a source is present and the key is absent (JS-falsy, i.e. no
non-empty key), per the `if (key)` test in the source — leaving it
unchanged otherwise. -/
theorem params_cursor_invariant :
    (∀ ps : Option ParamSource, (makeParams ps).index = 0) ∧
    (∀ (p : Params) (key : Option String) (text : String),
      p.index ≤ ((p.get key text).2).index) ∧
    (∀ (p : Params) (key : Option String) (text : String),
      ((p.get key text).2).index =
        if positionalCall p key then p.index + 1 else p.index) ∧
    (∀ (p : Params) (calls : List (Option String × String)),
      p.index ≤ (runGets p calls).index) := by
  refine ⟨fun ps => rfl, get_index_mono, get_index_step, ?_⟩
  intro p calls
  exact runGets_index_mono calls p

/-- C3 counterexample: with the ordered source `["a","b"]` and cursor 0, a
`get` call carrying the key `"foo"` does not return the element `"a"` at the
cursor and does not advance the cursor: it takes the keyed branch, reads
`["a","b"]["foo"]` (undefined) and leaves the cursor at 0. -/
theorem params_get_keyed_on_array_counterexample :
    (Params.get ⟨some (.arr ["a", "b"]), 0⟩ (some ("foo")) "%(foo)").1 = none ∧
    ((Params.get ⟨some (.arr ["a", "b"]), 0⟩ (some ("foo")) "%(foo)").2).index = 0 := by
  constructor <;> decide

/-- C3 amended: with an ordered (array) source, a `get` call with a JS-falsy
key (absent or empty) returns the element at the current cursor and advances
the cursor by one; a call carrying a truthy key instead reads the array by
that key string and leaves the cursor unchanged. -/
theorem params_get_array (l : List String) (i : Nat) (key : Option String)
    (text : String) :
    (keyTruthy key = false →
      Params.get ⟨some (.arr l), i⟩ key text =
        (l.get? i, ⟨some (.arr l), i + 1⟩)) ∧
    (keyTruthy key = true →
      Params.get ⟨some (.arr l), i⟩ key text =
        (jsKeyGet (.arr l) (key.getD ("")), ⟨some (.arr l), i⟩)) := by
  constructor
  · intro hk
    simp [Params.get, hk, jsPosGet]
  · intro hk
    simp [Params.get, hk]

/-- C3 amended, witness: with source `["a","b"]` and cursor 0, a keyless call
returns `"a"` and moves the cursor to 1. -/
theorem params_get_array_witness :
    keyTruthy none = false ∧
    Params.get ⟨some (.arr ["a", "b"]), 0⟩ none ("?") =
      (some ("a"), ⟨some (.arr ["a", "b"]), 1⟩) :=
  ⟨rfl, (params_get_array ["a", "b"] 0 none ("?")).1 rfl⟩

/-- C4: with ordered source `["a","b"]`, three successive keyless `get` calls
return `"a"`, then `"b"`, then an out-of-range undefined result, the cursor
moving 0 → 1 → 2 → 3 and no call aborting. -/
theorem params_positional_sequence :
    (Params.get (makeParams (some (.arr ["a", "b"]))) none ("?")) =
      (some ("a"), ⟨some (.arr ["a", "b"]), 1⟩) ∧
    (Params.get ⟨some (.arr ["a", "b"]), 1⟩ none ("?")) =
      (some ("b"), ⟨some (.arr ["a", "b"]), 2⟩) ∧
    (Params.get ⟨some (.arr ["a", "b"]), 2⟩ none ("?")) =
      (none, ⟨some (.arr ["a", "b"]), 3⟩) := by
  refine ⟨rfl, rfl, rfl⟩

/-- C5: with mapping source `{foo: "x"}`, a `get` with key `"foo"` returns
`"x"` and a `get` with the absent key `"bar"` returns the undefined result,
neither raising an error nor moving the cursor. -/
theorem params_named_lookup :
    (Params.get (makeParams (some (.items [("foo", "x")]))) (some ("foo")) ":foo") =
      (some ("x"), ⟨some (.items [("foo", "x")]), 0⟩) ∧
    (Params.get (makeParams (some (.items [("foo", "x")]))) (some ("bar")) ":bar") =
      (none, ⟨some (.items [("foo", "x")]), 0⟩) := by
  refine ⟨rfl, rfl⟩

/-- C6: with no source supplied, every `get` call returns the placeholder's
own matched text unchanged and leaves the state untouched, whether or not a
key is supplied. -/
theorem params_no_source_passthrough (key : Option String) (text : String)
    (i : Nat) :
    Params.get ⟨none, i⟩ key text = (some text, ⟨none, i⟩) := by
  rfl

theorem tokenizeAux_text_append (rules : LexRules) (fuel : Nat) (s : List Char) :
    tokensText (tokenizeAux rules fuel s).1 ++ (tokenizeAux rules fuel s).2 = s := by
  induction fuel generalizing s with
  | zero => cases s <;> simp [tokenizeAux, tokensText]
  | succ fuel ih =>
    cases s with
    | nil => simp [tokenizeAux, tokensText]
    | cons c rest =>
      cases h : firstMatch rules (c :: rest) with
      | none => simp [tokenizeAux, h, tokensText]
      | some p =>
        obtain ⟨ty, n⟩ := p
        cases n with
        | zero => simp [tokenizeAux, h, tokensText]
        | succ m =>
          have hr := ih ((c :: rest).drop (m + 1))
          simp only [tokenizeAux, h, tokensText, List.map_cons, List.flatten_cons]
          rw [List.append_assoc]
          rw [tokensText] at hr
          rw [hr, List.take_append_drop]

theorem tokenizeAux_stuck (rules : LexRules) (fuel : Nat) (s : List Char)
    (hfuel : s.length ≤ fuel) :
    (tokenizeAux rules fuel s).2 = [] ∨
      firstMatch rules (tokenizeAux rules fuel s).2 = none ∨
      ∃ ty, firstMatch rules (tokenizeAux rules fuel s).2 = some (ty, 0) := by
  induction fuel generalizing s with
  | zero =>
    have : s = [] := List.length_eq_zero.mp (Nat.le_zero.mp hfuel)
    subst this
    left
    rfl
  | succ fuel ih =>
    cases s with
    | nil => left; rfl
    | cons c rest =>
      cases h : firstMatch rules (c :: rest) with
      | none =>
        right; left
        simp [tokenizeAux, h]
      | some p =>
        obtain ⟨ty, n⟩ := p
        cases n with
        | zero =>
          right; right
          exact ⟨ty, by simp [tokenizeAux, h]⟩
        | succ m =>
          have hlen : ((c :: rest).drop (m + 1)).length ≤ fuel := by
            simp only [List.length_drop, List.length_cons]
            simp only [List.length_cons] at hfuel
            omega
          have := ih ((c :: rest).drop (m + 1)) hlen
          simpa [tokenizeAux, h] using this

/-- C1: round-trip losslessness: whenever the lexer tokenizes the input to
completion (no unconsumed remainder), concatenating the `text` field of the
emitted tokens in order reproduces the input exactly. -/
theorem tokenize_roundtrip (rules : LexRules) (input : List Char)
    (h : (tokenize rules input).2 = []) :
    tokensText (tokenize rules input).1 = input := by
  have := tokenizeAux_text_append rules input.length input
  rw [tokenize] at h
  rw [tokenize]
  rw [h, List.append_nil] at this
  exact this

/-- C1 witness: the demo dialect tokenizes `a<>b` to completion and the
token texts concatenate back to `a<>b`. -/
theorem tokenize_roundtrip_witness :
    (tokenize sqlRules ("a<>b".data)).2 = [] ∧
    tokensText (tokenize sqlRules ("a<>b".data)).1 = "a<>b".data :=
  ⟨by decide, tokenize_roundtrip sqlRules ("a<>b".data) (by decide)⟩

/-- C2: when tokenization stops with a non-empty unconsumed remainder, it
stopped exactly at the first position admitting no (usable) rule match —
either no rule matches there, or the first matching rule has a zero-length
match (the fatal configuration-defect case) — and the tokens produced
before that position are returned: their texts concatenate with the
remainder back to the input.  `tokenize` is a total function: no exception
is raised for the unmatched remainder. -/
theorem tokenize_unmatched_terminates (rules : LexRules) (input : List Char)
    (h : (tokenize rules input).2 ≠ []) :
    tokensText (tokenize rules input).1 ++ (tokenize rules input).2 = input ∧
    (firstMatch rules ((tokenize rules input).2) = none ∨
      ∃ ty, firstMatch rules ((tokenize rules input).2) = some (ty, 0)) := by
  refine ⟨tokenizeAux_text_append rules input.length input, ?_⟩
  have := tokenizeAux_stuck rules input.length input (Nat.le_refl _)
  rw [tokenize] at h
  rcases this with h0 | h1 | h2
  · exact absurd h0 h
  · left; exact h1
  · right; exact h2

/-- C2 witness: in the demo dialect no rule matches a carriage return, so
tokenizing `a\r` stops after the word `a` with remainder `\r`, no rule
matching at the stuck position. -/
theorem tokenize_unmatched_terminates_witness :
    (tokenize sqlRules ("a\r".data)).2 ≠ [] ∧
    (tokensText (tokenize sqlRules ("a\r".data)).1 ++
        (tokenize sqlRules ("a\r".data)).2 = "a\r".data ∧
      (firstMatch sqlRules ((tokenize sqlRules ("a\r".data)).2) = none ∨
        ∃ ty, firstMatch sqlRules ((tokenize sqlRules ("a\r".data)).2) =
          some (ty, 0))) :=
  ⟨by decide, tokenize_unmatched_terminates sqlRules ("a\r".data) (by decide)⟩

/-- C7: an unterminated block comment is not a lexical failure: `/* abc`
yields a single block-comment token extending to end-of-input; and a
terminated block comment matches lazily up to its first closer, so
`/*a*/*/` yields the block comment `/*a*/` followed by the operators `*`
and `/`. -/
theorem block_comment_unterminated :
    tokenize sqlRules ("/* abc".data) =
      ([⟨TokenType.BLOCK_COMMENT, "/* abc".data⟩], []) ∧
    tokenize sqlRules ("/*a*/*/".data) =
      ([⟨TokenType.BLOCK_COMMENT, "/*a*/".data⟩,
        ⟨TokenType.OPERATOR, ['*']⟩,
        ⟨TokenType.OPERATOR, ['/']⟩], []) := by
  constructor <;> decide

/-- C8: multi-character operators take precedence over their
single-character prefixes: `<>` tokenizes to exactly the one operator token
`<>`, not to the two tokens `<` and `>`. -/
theorem operator_multichar_precedence :
    tokenize sqlRules ("<>".data) = ([⟨TokenType.OPERATOR, ['<', '>']⟩], []) := by
  decide

/-- C10: the CASE and END rules match case-insensitively with no
word-boundary check: whatever follows, an input beginning with the letters
of `end` (or `case`) in any letter case starts with a case-end (case-start)
token for just that prefix; concretely `ENDING`, `ending` and `CASEload`
split into the case token and a separate word token for the remainder,
rather than one whole word token. -/
theorem case_rules_no_word_boundary :
    (∀ s : List Char,
      ((tokenize sqlRules ('E' :: 'N' :: 'D' :: s)).1).head? =
        some ⟨TokenType.CASE_END, ['E', 'N', 'D']⟩) ∧
    (∀ s : List Char,
      ((tokenize sqlRules ('C' :: 'A' :: 'S' :: 'E' :: s)).1).head? =
        some ⟨TokenType.CASE_START, ['C', 'A', 'S', 'E']⟩) ∧
    tokenize sqlRules ("ENDING".data) =
      ([⟨TokenType.CASE_END, "END".data⟩, ⟨TokenType.WORD, "ING".data⟩], []) ∧
    tokenize sqlRules ("ending".data) =
      ([⟨TokenType.CASE_END, "end".data⟩, ⟨TokenType.WORD, "ing".data⟩], []) ∧
    tokenize sqlRules ("CASEload".data) =
      ([⟨TokenType.CASE_START, "CASE".data⟩, ⟨TokenType.WORD, "load".data⟩], []) := by
  refine ⟨fun s => rfl, fun s => rfl, by decide, by decide, by decide⟩

end SqlFormatter
